import Mathlib

/-!
Shallow embedding of the Resume-Scorer scoring pipeline
(`src/services/atsScorer.js`, which bundles the ATS scorer and the keyword
extractor service). Strings are modelled as Lean `String`/`List Char`,
JavaScript numbers as `ℚ` (scores) / `ℕ` (counts) / `ℤ` (rounded values),
and the regular expressions of the source are translated into explicit
character-list scanners with the same matching semantics.
-/

namespace ResumeScorer

/-! ## Basic JavaScript semantics helpers -/

theorem length_dropWhile_leL (p : Char → Bool) (l : List Char) :
    (l.dropWhile p).length ≤ l.length := by
  induction l with
  | nil => simp
  | cons c cs ih =>
    by_cases h : p c
    · simp only [List.dropWhile, h]
      exact Nat.le_succ_of_le ih
    · simp [List.dropWhile, h]

/-- JS `Math.round`: rounds half toward positive infinity. -/
def jsRound (q : ℚ) : ℤ := ⌊q + 1/2⌋

/-- JS `\s` whitespace class, restricted to the ASCII whitespace characters. -/
def jsIsSpace (c : Char) : Bool :=
  c = ' ' || c = '\t' || c = '\n' || c = '\r' || c = Char.ofNat 11 || c = Char.ofNat 12

/-- JS `\w` word-character class: letters, digits and underscore. -/
def isWordChar (c : Char) : Bool := c.isAlphanum || c = '_'

/-- JS `String.prototype.toLowerCase`, character by character (ASCII inputs). -/
def jsToLower (s : String) : String := String.mk (s.data.map Char.toLower)

/-- Does list `p` occur at the head of list `s`? -/
def startsWithL : List Char → List Char → Bool
  | [], _ => true
  | _ :: _, [] => false
  | a :: as, b :: bs => a = b && startsWithL as bs

/-- Does `sub` occur as a contiguous sublist of `hay`
(JS `String.prototype.includes`)? -/
def containsSub : List Char → List Char → Bool
  | _, [] => true
  | [], _ :: _ => false
  | h :: t, n :: m => startsWithL (n :: m) (h :: t) || containsSub t (n :: m)

/-- JS `hay.includes(sub)` on strings. -/
def sIncludes (hay sub : String) : Bool := containsSub hay.data sub.data

/-- JS `String.prototype.trim` on a character list. -/
def jsTrim (l : List Char) : List Char :=
  ((l.dropWhile jsIsSpace).reverse.dropWhile jsIsSpace).reverse

/-- Fueled worker for `jsSplitRuns` (structural recursion so that the
kernel can evaluate it). -/
def jsSplitRunsF (p : Char → Bool) : Nat → List Char → List (List Char)
  | _, [] => [[]]
  | 0, _ :: _ => [[]]
  | fuel + 1, c :: cs =>
    if p c then
      [] :: jsSplitRunsF p fuel (cs.dropWhile p)
    else
      match jsSplitRunsF p fuel cs with
      | l :: ls => (c :: l) :: ls
      | [] => [[c]]

/-- JS `str.split(regex)` where the regex matches maximal nonempty runs of
characters satisfying `p`: segments between runs, keeping empty leading and
trailing segments exactly as JS does (`"".split` yields `[""]`). -/
def jsSplitRuns (p : Char → Bool) (l : List Char) : List (List Char) :=
  jsSplitRunsF p l.length l

/-- JS `str.split(sep)` for a single-character separator: splits at every
occurrence of the character. -/
def jsSplitChar (sep : Char) : List Char → List (List Char)
  | [] => [[]]
  | c :: cs =>
    if c = sep then
      [] :: jsSplitChar sep cs
    else
      match jsSplitChar sep cs with
      | l :: ls => (c :: l) :: ls
      | [] => [[c]]

/-- JS `Set` insertion-order deduplication (first occurrence wins). -/
def jsDedup (l : List String) : List String := go [] l where
  go (seen : List String) : List String → List String
    | [] => []
    | x :: xs => if seen.contains x then go seen xs else x :: go (x :: seen) xs

/-- Numeric value of a digit run (`parseInt` of a `\d+` capture). -/
def digitsVal (l : List Char) : Nat :=
  l.foldl (fun n c => n * 10 + (c.toNat - ('0').toNat)) 0

/-- Case-insensitive test whether any literal of `lits` occurs in `t`
(JS `/(a|b|...)/i.test(t)`). -/
def containsAnyCI (t : String) (lits : List String) : Bool :=
  lits.any (fun l => sIncludes (jsToLower t) l)

/-! ## Word-boundary literal matching

`extractSkills` and `extractActionVerbs` build regexes of the form
`\b<literal>\b` (with metacharacters escaped, so the body is a literal) and
count the global matches. A literal match at a position succeeds exactly when
the literal occurs there and both ends sit on a `\b` boundary; global
matching is the usual non-overlapping left-to-right scan. -/

/-- Is the transition between two (optional) characters a `\b` boundary?
Out-of-string counts as a non-word character. -/
def boundaryOk (a b : Option Char) : Bool :=
  (match a with | some c => isWordChar c | none => false) !=
  (match b with | some c => isWordChar c | none => false)

/-- Does the literal `pat` match at the head of `s` with `\b` on both sides,
`prev` being the character just before the current position? -/
def wbMatchHere (pat : List Char) (prev : Option Char) (s : List Char) : Bool :=
  !pat.isEmpty && startsWithL pat s && boundaryOk prev pat.head? &&
    boundaryOk pat.getLast? (s.drop pat.length).head?

/-- Fueled non-overlapping scan counting `\b<pat>\b` matches. -/
def scanWBF (pat : List Char) : Nat → Option Char → List Char → Nat
  | 0, _, _ => 0
  | _ + 1, _, [] => 0
  | fuel + 1, prev, c :: rest =>
    if wbMatchHere pat prev (c :: rest) then
      1 + scanWBF pat fuel pat.getLast? ((c :: rest).drop pat.length)
    else
      scanWBF pat fuel (some c) rest

/-- Number of matches of the regex `\b<pat>\b` in `s`
(the `g`-flag match count of the source). -/
def countWB (pat : String) (s : List Char) : Nat :=
  scanWBF pat.data s.length none s

/-! ## Static dictionaries (keywordExtractor service) -/

/-- Source `TECHNICAL_SKILLS`, flattened in the source's category/entry order. -/
def TECHNICAL_SKILLS : List (String × List String) :=
  [ ("programming",
     ["python", "java", "javascript", "typescript", "c++", "c#", "ruby", "go", "rust",
      "php", "swift", "kotlin", "scala", "r", "matlab", "sql", "html", "css"]),
    ("frameworks",
     ["react", "angular", "vue", "node.js", "express", "django", "flask", "spring",
      "tensorflow", "pytorch", "keras", "scikit-learn", "pandas", "numpy", "react native",
      "flutter", "next.js", "fastapi", "laravel", "rails", ".net", "asp.net"]),
    ("databases",
     ["mysql", "postgresql", "mongodb", "redis", "elasticsearch", "cassandra",
      "dynamodb", "oracle", "sql server", "sqlite", "mariadb", "neo4j"]),
    ("cloud",
     ["aws", "azure", "gcp", "google cloud", "docker", "kubernetes", "jenkins",
      "terraform", "ansible", "ci/cd", "devops", "microservices", "serverless"]),
    ("dataScience",
     ["machine learning", "deep learning", "nlp", "computer vision", "data mining",
      "statistical analysis", "data visualization", "big data", "spark", "hadoop",
      "tableau", "power bi", "jupyter", "a/b testing", "predictive modeling"]),
    ("tools",
     ["git", "github", "gitlab", "jira", "confluence", "slack", "vscode",
      "intellij", "postman", "swagger", "figma", "sketch", "photoshop"]),
    ("methodologies",
     ["agile", "scrum", "kanban", "waterfall", "tdd", "bdd", "ci/cd",
      "pair programming", "code review", "version control"]) ]

/-- Source `ACTION_VERBS` of the keyword extractor. -/
def ACTION_VERBS : List String :=
  ["achieved", "improved", "developed", "created", "implemented", "designed",
   "managed", "led", "coordinated", "increased", "decreased", "reduced",
   "optimized", "streamlined", "automated", "launched", "delivered", "built",
   "established", "analyzed", "evaluated", "researched", "collaborated",
   "mentored", "trained", "presented", "negotiated", "resolved", "executed"]

/-- Source `STOP_WORDS` set of the keyword extractor. -/
def STOP_WORDS : List String :=
  ["the", "a", "an", "and", "or", "but", "in", "on", "at", "to", "for",
   "of", "with", "by", "from", "as", "is", "was", "are", "were", "been",
   "be", "have", "has", "had", "do", "does", "did", "will", "would",
   "could", "should", "may", "might", "must", "can", "this", "that",
   "these", "those", "i", "you", "he", "she", "it", "we", "they"]

/-! ## Records produced by the extractor -/

/-- A detected technical skill (`{skill, category, count}`). -/
structure SkillRecord where
  skill : String
  category : String
  count : Nat
deriving DecidableEq, Repr

/-- A detected action verb (`{verb, count}`). -/
structure VerbRecord where
  verb : String
  count : Nat
deriving DecidableEq, Repr

/-- A named-entity hint (`{type, value}`). -/
structure EntityRecord where
  type : String
  value : String
deriving DecidableEq, Repr

/-- The `metadata` object of a full `extractKeywords` result. -/
structure KeywordMeta where
  totalKeywords : Nat
  skillsCount : Nat
  actionVerbsCount : Nat
deriving DecidableEq, Repr

/-- A `KeywordSet`. The early (empty-input) return of `extractKeywords` has
no `metadata` key, hence the `Option`. -/
structure KeywordSet where
  keywords : List String
  skills : List SkillRecord
  actionVerbs : List VerbRecord
  phrases : List String
  entities : List EntityRecord
  metadata : Option KeywordMeta
deriving DecidableEq, Repr

/-! ## extractSkills / extractActionVerbs -/

/-- Stable insert for a descending-by-key insertion sort: the new element
goes after every already-placed element with a key at least as large. -/
def insertDescBy {α : Type} (key : α → Nat) (a : α) : List α → List α
  | [] => [a]
  | b :: bs => if key b ≥ key a then b :: insertDescBy key a bs else a :: b :: bs

/-- Stable descending sort by a numeric key, modelling the JS stable
`sort((a, b) => key(b) - key(a))`. -/
def sortDescBy {α : Type} (key : α → Nat) (l : List α) : List α :=
  l.foldl (fun acc x => insertDescBy key x acc) []

/-- Stable descending sort by `count`. -/
def sortByCountDesc (l : List SkillRecord) : List SkillRecord :=
  sortDescBy (fun s => s.count) l

/-- Stable descending sort by `count` for verb records. -/
def sortVerbsByCountDesc (l : List VerbRecord) : List VerbRecord :=
  sortDescBy (fun v => v.count) l

/-- Flatten helper preserving category traversal order. -/
def concatMapL {α β : Type} (f : α → List β) : List α → List β
  | [] => []
  | a :: as => f a ++ concatMapL f as

/-- Source `extractSkills(text)`: count `\b<skill>\b` matches of every dictionary
entry against `' ' + text + ' '`, keep the positive counts, sort by count
descending (stable). Callers always pass lowercased text. -/
def extractSkills (text : String) : List SkillRecord :=
  let processed : List Char := ' ' :: text.data ++ [' ']
  let found := concatMapL
    (fun (cs : String × List String) =>
      (cs.2).filterMap (fun sk =>
        let c := countWB sk processed
        if c > 0 then some ⟨sk, cs.1, c⟩ else none))
    TECHNICAL_SKILLS
  sortByCountDesc found

/-- Source `extractActionVerbs(text)`: count `\b<verb>\b` matches for each verb of
the fixed list, keep positives, sort by count descending (stable). -/
def extractActionVerbs (text : String) : List VerbRecord :=
  let found := ACTION_VERBS.filterMap (fun v =>
    let c := countWB v text.data
    if c > 0 then some ⟨v, c⟩ else none)
  sortVerbsByCountDesc found

/-! ## compareKeywords -/

/-- Result of `compareKeywords`. -/
structure ComparisonResult where
  matched : List String
  missing : List String
  matchRate : ℚ
  totalJobKeywords : Nat
  matchedCount : Nat
  missingCount : Nat
deriving DecidableEq, Repr

/-- Classification of one job keyword against the lowercased resume keyword
set: exact membership first, then the bidirectional substring fallback. -/
def kwMatched (resumeSet : List String) (keyword : String) : Bool :=
  let lowerKeyword := jsToLower keyword
  if resumeSet.contains lowerKeyword then true
  else resumeSet.any (fun rk => sIncludes rk lowerKeyword || sIncludes lowerKeyword rk)

/-- Source `compareKeywords(resumeKeywords, jobKeywords)`. The `forEach` of the
source pushes each job keyword into exactly one of `matched`/`missing`
according to `kwMatched`, which is the filter below. -/
def compareKeywords (resumeKeywords jobKeywords : List String) : ComparisonResult :=
  let resumeSet := jsDedup (resumeKeywords.map jsToLower)
  let matched := jobKeywords.filter (fun k => kwMatched resumeSet k)
  let missing := jobKeywords.filter (fun k => !(kwMatched resumeSet k))
  { matched := matched
    missing := missing
    matchRate :=
      if jobKeywords.length > 0 then
        ((matched.length : ℚ) / (jobKeywords.length : ℚ)) * 100
      else 0
    totalJobKeywords := jobKeywords.length
    matchedCount := matched.length
    missingCount := missing.length }

/-! ## extractYearsOfExperience

The three regexes are translated into deterministic matchers. For each
pattern the greedy quantifiers are safe to take maximally (the character
class of each quantifier is disjoint from the first character that can
follow it), except for the optional `(?:of\s+)?` group of the first
pattern, where both branches are tried as the regex engine does. -/

/-- Maximal digit run at the head: `(digits, rest)`; fails when empty. -/
def takeDigits (l : List Char) : Option (List Char × List Char) :=
  let run := l.takeWhile Char.isDigit
  if run.isEmpty then none else some (run, l.drop run.length)

/-- Consume an optional single character `c` (greedy). -/
def optChar (c : Char) (l : List Char) : List Char :=
  match l with
  | x :: rest => if x = c then rest else l
  | [] => l

/-- Consume the literal `lit`, or fail. -/
def eatLit (lit : String) (l : List Char) : Option (List Char) :=
  if startsWithL lit.data l then some (l.drop lit.data.length) else none

/-- Consume at least one whitespace character (maximal run), or fail. -/
def eatWsPlus (l : List Char) : Option (List Char) :=
  match l with
  | c :: _ => if jsIsSpace c then some (l.dropWhile jsIsSpace) else none
  | [] => none

/-- Matcher for `/(\d+)\+?\s*years?\s+(?:of\s+)?experience/gi` at the head of
the (lowercased) input: returns the captured number and the rest after the
match. -/
def matchYears1 (l : List Char) : Option (Nat × List Char) := do
  let (ds, s1) ← takeDigits l
  let s2 := optChar '+' s1
  let s3 := s2.dropWhile jsIsSpace
  let s4 ← eatLit "year" s3
  let s5 := optChar 's' s4
  let s6 ← eatWsPlus s5
  match (eatLit "of" s6).bind eatWsPlus |>.bind (eatLit "experience") with
  | some s7 => some (digitsVal ds, s7)
  | none =>
    match eatLit "experience" s6 with
    | some s7 => some (digitsVal ds, s7)
    | none => none

/-- Matcher for `/experience[:\s]+(\d+)\+?\s*years?/gi` at the head. -/
def matchYears2 (l : List Char) : Option (Nat × List Char) := do
  let s1 ← eatLit "experience" l
  let sep := s1.takeWhile (fun c => c = ':' || jsIsSpace c)
  if sep.isEmpty then none else do
  let s2 := s1.drop sep.length
  let (ds, s3) ← takeDigits s2
  let s4 := optChar '+' s3
  let s5 := s4.dropWhile jsIsSpace
  let s6 ← eatLit "year" s5
  some (digitsVal ds, optChar 's' s6)

/-- Matcher for `/(\d+)\+?\s*years?\s+(?:in|with)/gi` at the head. -/
def matchYears3 (l : List Char) : Option (Nat × List Char) := do
  let (ds, s1) ← takeDigits l
  let s2 := optChar '+' s1
  let s3 := s2.dropWhile jsIsSpace
  let s4 ← eatLit "year" s3
  let s5 := optChar 's' s4
  let s6 ← eatWsPlus s5
  match eatLit "in" s6 with
  | some s7 => some (digitsVal ds, s7)
  | none =>
    match eatLit "with" s6 with
    | some s7 => some (digitsVal ds, s7)
    | none => none

/-- Fueled `matchAll` scan: collect the captures of all non-overlapping
matches, trying each position left to right. -/
def scanCapturesF (m : List Char → Option (Nat × List Char)) :
    Nat → List Char → List Nat
  | 0, _ => []
  | _ + 1, [] => []
  | fuel + 1, c :: rest =>
    match m (c :: rest) with
    | some (v, s') => v :: scanCapturesF m fuel s'
    | none => scanCapturesF m fuel rest

/-- All captures of a pattern over a string. -/
def scanCaptures (m : List Char → Option (Nat × List Char)) (l : List Char) :
    List Nat :=
  scanCapturesF m l.length l

/-- Source `extractYearsOfExperience(text)`: maximum of all `parseInt`ed captures of
the three patterns; `null` when that maximum is `0`. -/
def extractYearsOfExperience (text : String) : Option Nat :=
  let s := (jsToLower text).data
  let vals := scanCaptures matchYears1 s ++ scanCaptures matchYears2 s ++
    scanCaptures matchYears3 s
  let maxYears := vals.foldl max 0
  if maxYears > 0 then some maxYears else none

/-! ## detectEducation -/

/-- Source `EducationInfo` as returned by `detectEducation`. -/
structure EducationInfo where
  highestDegree : Option String
  degrees : List String
  fieldOfStudy : List String
deriving DecidableEq, Repr

/-- ASCII apostrophe, kept out of string literals. -/
def apos : Char := Char.ofNat 39

/-- The literal expansions of `/ph\.?d|doctorate|doctoral/`. -/
def phdLits : List String := ["phd", "ph.d", "doctorate", "doctoral"]

/-- The literal expansions of `/master[']?s|m\.?s\.?|m\.?b\.?a\.?|m\.?eng/`.
Optional `\.?` spots are expanded to all dot/no-dot combinations. -/
def mastersLits : List String :=
  ["masters", "master" ++ String.mk [apos] ++ "s",
   "ms", "m.s", "ms.", "m.s.",
   "mba", "m.ba", "mb.a", "m.b.a", "mba.", "m.ba.", "mb.a.", "m.b.a.",
   "meng", "m.eng"]

/-- The literal expansions of
`/bachelor[']?s|b\.?s\.?|b\.?a\.?|b\.?eng|undergraduate/`. -/
def bachelorsLits : List String :=
  ["bachelors", "bachelor" ++ String.mk [apos] ++ "s",
   "bs", "b.s", "bs.", "b.s.",
   "ba", "b.a", "ba.", "b.a.",
   "beng", "b.eng", "undergraduate"]

/-- The literal expansions of `/associate[']?s|a\.?s\.?|a\.?a\.?/`. -/
def associatesLits : List String :=
  ["associates", "associate" ++ String.mk [apos] ++ "s",
   "as", "a.s", "as.", "a.s.",
   "aa", "a.a", "aa.", "a.a."]

/-- The fixed fields-of-study list. -/
def FIELDS : List String :=
  ["computer science", "data science", "engineering", "mathematics",
   "statistics", "business", "marketing", "finance", "accounting",
   "biology", "chemistry", "physics", "psychology"]

/-- Source `detectEducation(text)`: each degree regex is tested once per call
(case-insensitively) as an occurrence test; the highest matching degree in
the order phd, masters, bachelors, associates wins. -/
def detectEducation (text : String) : EducationInfo :=
  let hasPhd := containsAnyCI text phdLits
  let hasMasters := containsAnyCI text mastersLits
  let hasBachelors := containsAnyCI text bachelorsLits
  let hasAssociates := containsAnyCI text associatesLits
  let lowerText := jsToLower text
  { highestDegree :=
      if hasPhd then some "phd"
      else if hasMasters then some "masters"
      else if hasBachelors then some "bachelors"
      else if hasAssociates then some "associates"
      else none
    degrees :=
      (if hasPhd then ["phd"] else []) ++
      (if hasMasters then ["masters"] else []) ++
      (if hasBachelors then ["bachelors"] else []) ++
      (if hasAssociates then ["associates"] else [])
    fieldOfStudy := FIELDS.filter (fun f => sIncludes lowerText f) }

/-! ## Format score building blocks -/

/-- Is a character one of the bullet markers `-`, `•`, `*`? -/
def isBulletChar (c : Char) : Bool := c = '-' || c = '•' || c = '*'

/-- Fueled scan counting matches of `/\n[\s]*[-•*]/g`: at each newline the
greedy whitespace run is followed by a bullet marker or the attempt fails;
a successful match consumes up to and including the marker. -/
def bulletScanF : Nat → List Char → Nat
  | 0, _ => 0
  | _ + 1, [] => 0
  | fuel + 1, c :: rest =>
    if c = '\n' then
      match rest.dropWhile jsIsSpace with
      | b :: rest' =>
        if isBulletChar b then 1 + bulletScanF fuel rest'
        else bulletScanF fuel rest
      | [] => bulletScanF fuel rest
    else bulletScanF fuel rest

/-- Source `(resumeText.match(/\n[\s]*[-•*]/g) || []).length`. -/
def bulletPointCount (text : String) : Nat :=
  bulletScanF text.data.length text.data

/-- Fueled count of maximal digit runs; each run is one `/\d+[%$]?/g`
match (the optional `%`/`$` only extends the match). -/
def digitRunScanF : Nat → List Char → Nat
  | 0, _ => 0
  | _ + 1, [] => 0
  | fuel + 1, c :: rest =>
    if c.isDigit then 1 + digitRunScanF fuel (rest.dropWhile Char.isDigit)
    else digitRunScanF fuel rest

/-- Source `(resumeText.match(/\d+[%$]?/g) || []).length`. -/
def numberCount (text : String) : Nat :=
  digitRunScanF text.data.length text.data

/-- The special characters checked by `/[™®©♦●◆▪]/`. -/
def hasSpecialChars (text : String) : Bool :=
  text.data.any (fun c =>
    c = '™' || c = '®' || c = '©' || c = '♦' || c = '●' || c = '◆' || c = '▪')

/-- Source `resumeText.split(/\s+/).length`, the word count used throughout. -/
def countWords (text : String) : Nat :=
  (jsSplitRuns jsIsSpace text.data).length

/-- Section-header regexes of `calculateFormatScore`, as occurrence tests. -/
def hasContactSection (t : String) : Bool :=
  containsAnyCI t ["email", "phone", "address", "linkedin"]

/-- Source `/(experience|employment|work history)/i`. -/
def hasExperienceSection (t : String) : Bool :=
  containsAnyCI t ["experience", "employment", "work history"]

/-- Source `/(education|academic|degree)/i`. -/
def hasEducationSection (t : String) : Bool :=
  containsAnyCI t ["education", "academic", "degree"]

/-- Source `/(skills|technical|competencies)/i`. -/
def hasSkillsSection (t : String) : Bool :=
  containsAnyCI t ["skills", "technical", "competencies"]

/-- The `foundSections` object. -/
structure SectionFlags where
  contact : Bool
  experience : Bool
  education : Bool
  skills : Bool
deriving DecidableEq, Repr

/-- All four section flags for a text. -/
def foundSections (t : String) : SectionFlags :=
  ⟨hasContactSection t, hasExperienceSection t, hasEducationSection t, hasSkillsSection t⟩

/-- Number of detected sections (out of 4). -/
def sectionCount (t : String) : Nat :=
  (if hasContactSection t then 1 else 0) + (if hasExperienceSection t then 1 else 0) +
  (if hasEducationSection t then 1 else 0) + (if hasSkillsSection t then 1 else 0)

/-- Word-count rule of the format score: 300–1000 words → 20, under 300 →
10, over 1000 → 15. -/
def formatLengthPoints (t : String) : ℚ :=
  let wordCount := countWords t
  if 300 ≤ wordCount ∧ wordCount ≤ 1000 then 20
  else if wordCount < 300 then 10
  else 15

/-- Bullet-point rule of the format score: 5 or more regex matches → 15,
otherwise 5. -/
def formatBulletPoints (t : String) : ℚ :=
  if bulletPointCount t ≥ 5 then 15 else 5

/-- Number-token rule of the format score. -/
def formatNumberPoints (t : String) : ℚ :=
  if numberCount t ≥ 5 then 15 else 5

/-- Special-character rule of the format score. -/
def formatSpecialPoints (t : String) : ℚ :=
  if hasSpecialChars t then -10 else 10

/-- Source `issues`/`strengths` payload of the format analysis. -/
structure FormatAnalysis where
  issues : List String
  strengths : List String
deriving DecidableEq, Repr

/-- Result of `calculateFormatScore`. -/
structure FormatScore where
  score : ℚ
  sections : SectionFlags
  analysis : FormatAnalysis
deriving DecidableEq, Repr

/-- Source `calculateFormatScore(resumeText)`: sections contribute
`(sectionCount/4)*40`, then the word-count, bullet, number and
special-character rules are added and the total is clamped to `[0,100]`. -/
def calculateFormatScore (resumeText : String) : FormatScore :=
  let secs := foundSections resumeText
  let wordCount := countWords resumeText
  let score : ℚ :=
    ((sectionCount resumeText : ℚ) / 4) * 40 +
    formatLengthPoints resumeText + formatBulletPoints resumeText +
    formatNumberPoints resumeText + formatSpecialPoints resumeText
  let issues :=
    (if secs.contact then [] else ["Missing contact section"]) ++
    (if secs.experience then [] else ["Missing experience section"]) ++
    (if secs.education then [] else ["Missing education section"]) ++
    (if secs.skills then [] else ["Missing skills section"]) ++
    (if 300 ≤ wordCount ∧ wordCount ≤ 1000 then []
     else if wordCount < 300 then ["Resume may be too short"]
     else ["Resume may be too long"]) ++
    (if bulletPointCount resumeText ≥ 5 then []
     else ["Consider adding more bullet points"]) ++
    (if numberCount resumeText ≥ 5 then [] else ["Add more quantifiable results"]) ++
    (if hasSpecialChars resumeText then
      ["Contains special characters that may confuse ATS"] else [])
  let strengths :=
    (if secs.contact then ["Contact section present"] else []) ++
    (if secs.experience then ["Experience section present"] else []) ++
    (if secs.education then ["Education section present"] else []) ++
    (if secs.skills then ["Skills section present"] else []) ++
    (if 300 ≤ wordCount ∧ wordCount ≤ 1000 then ["Optimal resume length"] else []) ++
    (if bulletPointCount resumeText ≥ 5 then ["Good use of bullet points"] else []) ++
    (if numberCount resumeText ≥ 5 then ["Contains quantifiable achievements"] else []) ++
    (if hasSpecialChars resumeText then [] else ["No problematic special characters"])
  { score := max 0 (min 100 score)
    sections := secs
    analysis := ⟨issues, strengths⟩ }

/-! ## countQuantifiableAchievements -/

/-- Fueled count of `/\d+%/g` matches: maximal digit runs immediately
followed by `%` (positions inside a failing run cannot start a match). -/
def pctScanF : Nat → List Char → Nat
  | 0, _ => 0
  | _ + 1, [] => 0
  | fuel + 1, c :: rest =>
    if c.isDigit then
      match rest.dropWhile Char.isDigit with
      | '%' :: rest' => 1 + pctScanF fuel rest'
      | rest' => pctScanF fuel rest'
    else pctScanF fuel rest

/-- Fueled count of `/\$[\d,]+/g` matches. -/
def dollarScanF : Nat → List Char → Nat
  | 0, _ => 0
  | _ + 1, [] => 0
  | fuel + 1, c :: rest =>
    if c = '$' then
      match rest with
      | d :: _ =>
        if d.isDigit || d = ',' then
          1 + dollarScanF fuel (rest.dropWhile (fun x => x.isDigit || x = ','))
        else dollarScanF fuel rest
      | [] => 0
    else dollarScanF fuel rest

/-- Fueled count of `/\d+\s*(w₁|w₂|...)/g` matches (used for the
million/thousand/billion and years/months/weeks/days patterns): a maximal
digit run, optional whitespace, then the first alternative that matches. -/
def numWordScanF (words : List String) : Nat → List Char → Nat
  | 0, _ => 0
  | _ + 1, [] => 0
  | fuel + 1, c :: rest =>
    if c.isDigit then
      let afterRun := rest.dropWhile Char.isDigit
      let afterWs := afterRun.dropWhile jsIsSpace
      match words.find? (fun w => startsWithL w.data afterWs) with
      | some w => 1 + numWordScanF words fuel (afterWs.drop w.data.length)
      | none => numWordScanF words fuel afterRun
    else numWordScanF words fuel rest

/-- Backtracking tail of the `reduced[\s\w]*by[\s]*\d+` alternative: try the
largest `[\s\w]*` run first, then shorter ones, looking for `by`, optional
whitespace and at least one digit; returns the rest after the digits. -/
def reducedByTail (l : List Char) : Nat → Option (List Char)
  | 0 =>
    match eatLit "by" l with
    | some afterBy =>
      let afterWs := afterBy.dropWhile jsIsSpace
      match afterWs with
      | d :: _ => if d.isDigit then some (afterWs.dropWhile Char.isDigit) else none
      | [] => none
    | none => none
  | k + 1 =>
    match eatLit "by" (l.drop (k + 1)) with
    | some afterBy =>
      let afterWs := afterBy.dropWhile jsIsSpace
      match afterWs with
      | d :: _ =>
        if d.isDigit then some (afterWs.dropWhile Char.isDigit)
        else reducedByTail l k
      | [] => reducedByTail l k
    | none => reducedByTail l k

/-- Fueled count of
`/increased|decreased|improved|reduced[\s\w]*by[\s]*\d+/g` matches with the
alternatives tried in source order. -/
def achieveScanF : Nat → List Char → Nat
  | 0, _ => 0
  | _ + 1, [] => 0
  | fuel + 1, s@(_ :: rest) =>
    if startsWithL "increased".data s then 1 + achieveScanF fuel (s.drop 9)
    else if startsWithL "decreased".data s then 1 + achieveScanF fuel (s.drop 9)
    else if startsWithL "improved".data s then 1 + achieveScanF fuel (s.drop 8)
    else if startsWithL "reduced".data s then
      let afterRed := s.drop 7
      let run := afterRed.takeWhile (fun c => jsIsSpace c || isWordChar c)
      match reducedByTail afterRed run.length with
      | some s' => 1 + achieveScanF fuel s'
      | none => achieveScanF fuel rest
    else achieveScanF fuel rest

/-- Source `countQuantifiableAchievements(text)`: sum of the match counts of the
five patterns (all run case-insensitively, hence on the lowercased text). -/
def countQuantifiableAchievements (text : String) : Nat :=
  let s := (jsToLower text).data
  pctScanF s.length s + dollarScanF s.length s +
  numWordScanF ["million", "thousand", "billion"] s.length s +
  achieveScanF s.length s +
  numWordScanF ["years", "months", "weeks", "days"] s.length s

/-! ## checkContactInfo -/

/-- Character class `[a-zA-Z0-9._%+-]` of the email local part. -/
def emailLocalChar (c : Char) : Bool :=
  c.isAlphanum || c = '.' || c = '_' || c = '%' || c = '+' || c = '-'

/-- Character class `[a-zA-Z0-9.-]` of the email domain part. -/
def emailDomainChar (c : Char) : Bool := c.isAlphanum || c = '.' || c = '-'

/-- After an `@`: is there a nonempty domain-character run, then a literal
dot, then at least two letters? (`bCount` counts domain characters read.) -/
def emailAfterAt (bCount : Nat) : List Char → Bool
  | [] => false
  | c :: rest =>
    (c = '.' && bCount ≥ 1 &&
      (match rest with
       | a :: b :: _ => a.isAlpha && b.isAlpha
       | _ => false)) ||
    (emailDomainChar c && emailAfterAt (bCount + 1) rest)

/-- Source `/[a-zA-Z0-9._%+-]+@[a-zA-Z0-9.-]+\.[a-zA-Z]{2,}/.test(text)`: a match
exists iff some `@` is preceded by a local character and followed by a
domain run, a dot and two letters. -/
def hasEmail (text : String) : Bool := go none text.data where
  go (prev : Option Char) : List Char → Bool
    | [] => false
    | c :: rest =>
      (c = '@' &&
        (match prev with | some p => emailLocalChar p | none => false) &&
        emailAfterAt 0 rest) ||
      go (some c) rest

/-- Separator class `[-.\s]` of the phone regex. -/
def phoneSep (c : Char) : Bool := c = '-' || c = '.' || jsIsSpace c

/-- Consume an optional separator (forced take: a separator character can
never satisfy the digit that must follow). -/
def optSep (l : List Char) : List Char :=
  match l with
  | c :: rest => if phoneSep c then rest else l
  | [] => l

/-- Consume exactly `n` digits, or fail. -/
def eatDigits : Nat → List Char → Option (List Char)
  | 0, l => some l
  | _ + 1, [] => none
  | n + 1, c :: rest => if c.isDigit then eatDigits n rest else none

/-- Core of the phone regex after the optional `+1` prefix:
`\(?\d{3}\)?[-.\s]?\d{3}[-.\s]?\d{4}`. -/
def phoneCore (l : List Char) : Bool :=
  let l1 := optChar '(' l
  match eatDigits 3 l1 with
  | none => false
  | some l2 =>
    let l3 := optChar ')' l2
    let l4 := optSep l3
    match eatDigits 3 l4 with
    | none => false
    | some l5 => (eatDigits 4 (optSep l5)).isSome

/-- Match of the whole phone pattern at one position, with and without the
optional `(\+?1[-.\s]?)?` prefix group. -/
def phoneAt (l : List Char) : Bool :=
  phoneCore l ||
  (match l with
   | '+' :: '1' :: r => phoneCore (optSep r)
   | '1' :: r => phoneCore (optSep r)
   | _ => false)

/-- Source `/(\+?1[-.\s]?)?\(?\d{3}\)?[-.\s]?\d{3}[-.\s]?\d{4}/.test(text)`. -/
def hasPhone (text : String) : Bool := go text.data where
  go : List Char → Bool
    | [] => false
    | c :: rest => phoneAt (c :: rest) || go rest

/-- The `contactInfo` flags. -/
structure ContactInfo where
  hasEmail : Bool
  hasPhone : Bool
  hasLinkedIn : Bool
  hasLocation : Bool
deriving DecidableEq, Repr

/-- Source `checkContactInfo(text)`. -/
def checkContactInfo (text : String) : ContactInfo :=
  { hasEmail := hasEmail text
    hasPhone := hasPhone text
    hasLinkedIn := sIncludes (jsToLower text) "linkedin.com"
    hasLocation := containsAnyCI text ["city", "state", "address", "location"] }

/-! ## analyzeContentQuality -/

/-- Fueled count of non-overlapping matches of an alternation of literals,
tried in order at each position. -/
def altScanF (alts : List String) : Nat → List Char → Nat
  | 0, _ => 0
  | _ + 1, [] => 0
  | fuel + 1, s@(_ :: rest) =>
    match alts.find? (fun a => !a.isEmpty && startsWithL a.data s) with
    | some a => 1 + altScanF alts fuel (s.drop a.data.length)
    | none => altScanF alts fuel rest

/-- Count of matches of an alternation of literals over a char list. -/
def countAlts (alts : List String) (s : List Char) : Nat := altScanF alts s.length s

/-- Source `calculateReadabilityScore(avgSentenceLength, activeVoiceRatio)`. -/
def calculateReadabilityScore (avgSentenceLength activeVoiceRatio : ℚ) : ℚ :=
  let score : ℚ := 100
  let score := if avgSentenceLength > 25 then score - 20
    else if avgSentenceLength > 20 then score - 10 else score
  let score := if avgSentenceLength < 10 then score - 15 else score
  let score := if activeVoiceRatio > 50 then score + 10 else score
  max 0 (min 100 score)

/-- The content-quality metrics record. -/
structure ContentQuality where
  avgSentenceLength : ℤ
  activeVoiceRatio : ℤ
  usesSTARMethod : Bool
  starIndicatorCount : Nat
  readabilityScore : ℚ
  wordCount : Nat
  sentenceCount : Nat
deriving DecidableEq, Repr

/-- Source `analyzeContentQuality(text)`: sentence split on `[.!?]+` filtered to
nonblank, word split on `\s+`, action verbs on the lowercased text, and the
four STAR indicator pattern families (all case-insensitive). -/
def analyzeContentQuality (text : String) : ContentQuality :=
  let sentences := (jsSplitRuns (fun c => c = '.' || c = '!' || c = '?') text.data).filter
    (fun l => (jsTrim l).length > 0)
  let words := jsSplitRuns jsIsSpace text.data
  let avgSentenceLength : ℚ :=
    if sentences.length > 0 then (words.length : ℚ) / (sentences.length : ℚ) else 0
  let actionVerbs := extractActionVerbs (jsToLower text)
  let activeVoiceRatio : ℚ :=
    if sentences.length > 0 then
      ((actionVerbs.length : ℚ) / (sentences.length : ℚ)) * 100
    else 0
  let lower := (jsToLower text).data
  let starCount :=
    countAlts ["achieved", "accomplished", "attained"] lower +
    countAlts ["resulted in", "led to", "contributed to"] lower +
    countAlts ["responsible for", "tasked with"] lower +
    countAlts ["implemented", "executed", "delivered"] lower
  { avgSentenceLength := jsRound avgSentenceLength
    activeVoiceRatio := jsRound activeVoiceRatio
    usesSTARMethod := starCount ≥ 3
    starIndicatorCount := starCount
    readabilityScore := calculateReadabilityScore avgSentenceLength activeVoiceRatio
    wordCount := words.length
    sentenceCount := sentences.length }

/-! ## Simple helpers of the scorer -/

/-- Source `isOptimalLength(text)`. -/
def isOptimalLength (text : String) : Bool :=
  let wordCount := countWords text
  300 ≤ wordCount && wordCount ≤ 1000

/-- Source `estimatePages(text)`: `Math.ceil(wordCount / 500)`. -/
def estimatePages (text : String) : ℤ :=
  ⌈(countWords text : ℚ) / 500⌉

/-- Source `getScoreGrade(score)`. -/
def getScoreGrade (score : ℤ) : String :=
  if score ≥ 90 then "A"
  else if score ≥ 80 then "B"
  else if score ≥ 70 then "C"
  else if score ≥ 60 then "D"
  else "F"

/-! ## calculateKeywordScore -/

/-- Result of `calculateKeywordScore`. -/
structure KeywordScore where
  score : ℚ
  matched : Nat
  missing : Nat
  matchRate : ℚ
  matchedKeywords : List String
  missingKeywords : List String
deriving DecidableEq, Repr

/-- Source `calculateKeywordScore(resumeKeywords, jobKeywords)`: the match rate of
the full keyword lists, plus 10 (capped at 100) when the skills-only match
rate exceeds 70. -/
def calculateKeywordScore (resumeKeywords jobKeywords : KeywordSet) : KeywordScore :=
  let comparison := compareKeywords resumeKeywords.keywords jobKeywords.keywords
  let score := comparison.matchRate
  let techKeywordsMatch := compareKeywords
    (resumeKeywords.skills.map (fun s => s.skill))
    (jobKeywords.skills.map (fun s => s.skill))
  let score := if techKeywordsMatch.matchRate > 70 then min 100 (score + 10) else score
  { score := score
    matched := comparison.matchedCount
    missing := comparison.missingCount
    matchRate := (jsRound (comparison.matchRate * 10) : ℚ) / 10
    matchedKeywords := comparison.matched.take 20
    missingKeywords := comparison.missing.take 20 }

/-! ## calculateSkillsScore -/

/-- Insertion-ordered category tally, modelling the JS object update
`categories[c] = (categories[c] || 0) + 1`. -/
def bumpAssoc : List (String × Nat) → String → List (String × Nat)
  | [], k => [(k, 1)]
  | (a, n) :: r, k => if a = k then (a, n + 1) :: r else (a, n) :: bumpAssoc r k

/-- Analysis payload of the skills score; the early (no job skills) return
carries no totals. -/
structure SkillsAnalysis where
  matched : List SkillRecord
  missing : List SkillRecord
  categories : List (String × Nat)
  totalResumeSkills : Option Nat
  totalJobSkills : Option Nat
deriving DecidableEq, Repr

/-- Result of `calculateSkillsScore`. -/
structure SkillsScore where
  score : ℚ
  coverage : ℤ
  criticalMatched : Nat
  analysis : SkillsAnalysis
deriving DecidableEq, Repr

/-- Coverage `matched job-skills / total job-skills × 100` for a pair of
texts, as computed inside `calculateSkillsScore`. -/
def skillsCoverage (resumeText jobDescription : String) : ℚ :=
  let resumeSkills := extractSkills (jsToLower resumeText)
  let jobSkills := extractSkills (jsToLower jobDescription)
  let resumeSkillNames := resumeSkills.map (fun s => jsToLower s.skill)
  let matchedSkills := jobSkills.filter
    (fun js => resumeSkillNames.contains (jsToLower js.skill))
  if jobSkills.length > 0 then
    ((matchedSkills.length : ℚ) / (jobSkills.length : ℚ)) * 100
  else 0

/-- Source `extraSkills = resumeSkills.length - matchedSkills.length` as computed
inside `calculateSkillsScore`. -/
def skillsExtra (resumeText jobDescription : String) : ℤ :=
  let resumeSkills := extractSkills (jsToLower resumeText)
  let jobSkills := extractSkills (jsToLower jobDescription)
  let resumeSkillNames := resumeSkills.map (fun s => jsToLower s.skill)
  let matchedSkills := jobSkills.filter
    (fun js => resumeSkillNames.contains (jsToLower js.skill))
  (resumeSkills.length : ℤ) - (matchedSkills.length : ℤ)

/-- Source `calculateSkillsScore(resumeText, jobDescription)`: default 75 when the
job text yields no skills; otherwise the coverage, plus 10 (capped at 100)
when `extraSkills > 5` and coverage exceeds 50. -/
def calculateSkillsScore (resumeText jobDescription : String) : SkillsScore :=
  let resumeSkills := extractSkills (jsToLower resumeText)
  let jobSkills := extractSkills (jsToLower jobDescription)
  if jobSkills.length = 0 then
    { score := 75
      coverage := 75
      criticalMatched := 0
      analysis := ⟨[], [], [], none, none⟩ }
  else
    let resumeSkillNames := resumeSkills.map (fun s => jsToLower s.skill)
    let matchedSkills := jobSkills.filter
      (fun js => resumeSkillNames.contains (jsToLower js.skill))
    let missingSkills := jobSkills.filter
      (fun js => !(resumeSkillNames.contains (jsToLower js.skill)))
    let coverage : ℚ :=
      if jobSkills.length > 0 then
        ((matchedSkills.length : ℚ) / (jobSkills.length : ℚ)) * 100
      else 0
    let extraSkills : ℤ := (resumeSkills.length : ℤ) - (matchedSkills.length : ℤ)
    let score := if extraSkills > 5 ∧ coverage > 50 then min 100 (coverage + 10) else coverage
    let categories := matchedSkills.foldl (fun acc sk => bumpAssoc acc sk.category) []
    { score := score
      coverage := jsRound coverage
      criticalMatched := matchedSkills.length
      analysis :=
        ⟨matchedSkills.take 15, missingSkills.take 10, categories,
         some resumeSkills.length, some jobSkills.length⟩ }

/-! ## calculateExperienceScore -/

/-- Analysis payload of the experience score. -/
structure ExperienceAnalysis where
  resumeYears : Option Nat
  requiredYears : Option Nat
  meetsRequirement : Bool
  hasActionVerbs : Bool
deriving DecidableEq, Repr

/-- Result of `calculateExperienceScore`. -/
structure ExperienceScore where
  score : ℚ
  analysis : ExperienceAnalysis
deriving DecidableEq, Repr

/-- The five leadership indicator terms. -/
def leadershipTerms : List String := ["led", "managed", "directed", "supervised", "mentored"]

/-- Source `calculateExperienceScore(resumeText, jobDescription)`. -/
def calculateExperienceScore (resumeText jobDescription : String) : ExperienceScore :=
  let resumeYears := extractYearsOfExperience resumeText
  let jobYears := extractYearsOfExperience jobDescription
  let base : ℚ :=
    match jobYears with
    | some j =>
      match resumeYears with
      | none => 50
      | some r =>
        if (r : ℚ) ≥ (j : ℚ) then 100
        else if (r : ℚ) ≥ (j : ℚ) * 0.75 then 80
        else 60
    | none =>
      match resumeYears with
      | some r => if r > 0 then 85 else 70
      | none => 70
  let meets : Bool :=
    match jobYears, resumeYears with
    | some j, some r => decide ((r : ℚ) ≥ (j : ℚ)) || decide ((r : ℚ) ≥ (j : ℚ) * 0.75)
    | _, _ => false
  let actionVerbs := extractActionVerbs (jsToLower resumeText)
  let hasVerbs := actionVerbs.length ≥ 5
  let score := if hasVerbs then min 100 (base + 10) else base
  let hasLeadership := leadershipTerms.any (fun term => sIncludes (jsToLower resumeText) term)
  let score := if hasLeadership then min 100 (score + 5) else score
  { score := score
    analysis :=
      { resumeYears := resumeYears
        requiredYears := jobYears
        meetsRequirement := meets
        hasActionVerbs := hasVerbs } }

/-! ## calculateEducationScore -/

/-- Source `degreeRank` lookup; `none` models an `undefined` JS lookup. -/
def degreeRankOpt (d : Option String) : Option ℤ :=
  d.bind (fun x =>
    if x = "phd" then some 4
    else if x = "masters" then some 3
    else if x = "bachelors" then some 2
    else if x = "associates" then some 1
    else none)

/-- Source `degreeRank[d] || 0`. -/
def degreeRankOr0 (d : Option String) : ℤ := (degreeRankOpt d).getD 0

/-- Analysis payload of the education score; `meetsRequirement` is the JS
comparison `degreeRank[resume] >= degreeRank[job]`, which is false whenever
either lookup is `undefined`. -/
structure EducationAnalysis where
  resume : EducationInfo
  required : EducationInfo
  meetsRequirement : Bool
deriving DecidableEq, Repr

/-- Result of `calculateEducationScore`. -/
structure EducationScore where
  score : ℚ
  analysis : EducationAnalysis
deriving DecidableEq, Repr

/-- Source `calculateEducationScore(resumeText, jobDescription)`. -/
def calculateEducationScore (resumeText jobDescription : String) : EducationScore :=
  let resumeEducation := detectEducation resumeText
  let jobEducation := detectEducation jobDescription
  let base : ℚ :=
    if jobEducation.highestDegree = none then
      if resumeEducation.highestDegree ≠ none then 90 else 70
    else
      let resumeRank := degreeRankOr0 resumeEducation.highestDegree
      let jobRank := degreeRankOr0 jobEducation.highestDegree
      if resumeRank ≥ jobRank then 100
      else if resumeRank = jobRank - 1 then 75
      else if resumeRank > 0 then 60
      else 40
  let fieldMatch :=
    jobEducation.fieldOfStudy.length > 0 ∧ resumeEducation.fieldOfStudy.length > 0 ∧
      jobEducation.fieldOfStudy.any (fun f => resumeEducation.fieldOfStudy.contains f)
  let score := if fieldMatch then min 100 (base + 10) else base
  { score := score
    analysis :=
      { resume := resumeEducation
        required := jobEducation
        meetsRequirement :=
          match degreeRankOpt resumeEducation.highestDegree,
            degreeRankOpt jobEducation.highestDegree with
          | some r, some j => r ≥ j
          | _, _ => false } }

/-! ## calculateScore -/

/-- One entry of the `breakdown` mapping. -/
structure BreakdownEntry where
  score : ℤ
  weight : Nat
  weightedScore : ℤ
deriving DecidableEq, Repr

/-- The five-part `breakdown`. -/
structure Breakdown where
  keywordMatch : BreakdownEntry
  skillsAlignment : BreakdownEntry
  experienceRelevance : BreakdownEntry
  educationMatch : BreakdownEntry
  formatReadability : BreakdownEntry
deriving DecidableEq, Repr

/-- The `resumeLength` metrics record. -/
structure ResumeLength where
  words : Nat
  optimal : Bool
  pages : ℤ
deriving DecidableEq, Repr

/-- The `metrics` record of the result. -/
structure Metrics where
  keywordsMatched : Nat
  keywordsMissing : Nat
  matchRate : ℚ
  skillsCoverage : ℤ
  criticalSkillsMatched : Nat
  actionVerbsCount : Nat
  quantifiableAchievements : Nat
  resumeLength : ResumeLength
  contactInfo : ContactInfo
  sectionsComplete : SectionFlags
deriving DecidableEq, Repr

/-- The `keywordAnalysis` record of the result. -/
structure KeywordAnalysis where
  matched : List String
  missing : List String
  matchRate : ℚ
deriving DecidableEq, Repr

/-- The aggregate `ScoreResult`. -/
structure ScoreResult where
  overallScore : ℤ
  scoreGrade : String
  breakdown : Breakdown
  metrics : Metrics
  keywordAnalysis : KeywordAnalysis
  skillsAnalysis : SkillsAnalysis
  contentQuality : ContentQuality
  formatAnalysis : FormatAnalysis
deriving DecidableEq, Repr

set_option linter.unusedVariables false in
/-- Source `calculateScore(resumeText, jobDescription, resumeKeywords, jobKeywords,
industry)`: the five sub-scores, the rounded weighted overall score, and the
assembled result structure. The `industry` parameter is accepted but never
read in the body, exactly as in the source. -/
def calculateScore (resumeText jobDescription : String)
    (resumeKeywords jobKeywords : KeywordSet) (industry : String := "general") :
    ScoreResult :=
  let keywordScore := calculateKeywordScore resumeKeywords jobKeywords
  let skillsScore := calculateSkillsScore resumeText jobDescription
  let experienceScore := calculateExperienceScore resumeText jobDescription
  let educationScore := calculateEducationScore resumeText jobDescription
  let formatScore := calculateFormatScore resumeText
  let overallScore := jsRound
    (keywordScore.score * (40 / 100) +
     skillsScore.score * (20 / 100) +
     experienceScore.score * (15 / 100) +
     educationScore.score * (10 / 100) +
     formatScore.score * (15 / 100))
  { overallScore := overallScore
    scoreGrade := getScoreGrade overallScore
    breakdown :=
      { keywordMatch :=
          ⟨jsRound keywordScore.score, 40, jsRound (keywordScore.score * (40 / 100))⟩
        skillsAlignment :=
          ⟨jsRound skillsScore.score, 20, jsRound (skillsScore.score * (20 / 100))⟩
        experienceRelevance :=
          ⟨jsRound experienceScore.score, 15, jsRound (experienceScore.score * (15 / 100))⟩
        educationMatch :=
          ⟨jsRound educationScore.score, 10, jsRound (educationScore.score * (10 / 100))⟩
        formatReadability :=
          ⟨jsRound formatScore.score, 15, jsRound (formatScore.score * (15 / 100))⟩ }
    metrics :=
      { keywordsMatched := keywordScore.matched
        keywordsMissing := keywordScore.missing
        matchRate := keywordScore.matchRate
        skillsCoverage := skillsScore.coverage
        criticalSkillsMatched := skillsScore.criticalMatched
        actionVerbsCount := resumeKeywords.actionVerbs.length
        quantifiableAchievements := countQuantifiableAchievements resumeText
        resumeLength :=
          { words := countWords resumeText
            optimal := isOptimalLength resumeText
            pages := estimatePages resumeText }
        contactInfo := checkContactInfo resumeText
        sectionsComplete := formatScore.sections }
    keywordAnalysis :=
      { matched := keywordScore.matchedKeywords
        missing := keywordScore.missingKeywords
        matchRate := keywordScore.matchRate }
    skillsAnalysis := skillsScore.analysis
    contentQuality := analyzeContentQuality resumeText
    formatAnalysis := formatScore.analysis }

/-! ## extractKeywords

`extractKeywords` also calls into the external NLP libraries (`natural`'s
TF-IDF term listing, `compromise`'s noun/organization/place chunkers). Those
collaborators are not part of this repository, so they are passed in as
explicit function parameters; everything the repository itself computes is
embedded. -/

/-- The external NLP collaborators used by the keyword extractor. -/
structure NLPExt where
  listTerms : String → List String
  nouns : String → List String
  organizations : String → List String
  places : String → List String

/-- Source `extractTFIDFKeywords(text)`: the externally ranked terms, filtered to
non-stop-words of length above 2, top 50. -/
def extractTFIDFKeywords (ext : NLPExt) (text : String) : List String :=
  ((ext.listTerms text).filter
    (fun term => !STOP_WORDS.contains term && term.data.length > 2)).take 50

/-- Number of parts of `s.split(' ')` (split at every single space). -/
def jsSplitSpaceLen (s : String) : Nat := (jsSplitChar ' ' s.data).length

/-- First part of `s.split(' ')`. -/
def firstSpaceWord (s : String) : String :=
  String.mk (s.data.takeWhile (fun c => c ≠ ' '))

/-- Lowercase-letter class `[a-z]` of the bigram regex (the text is
lowercased before matching). -/
def isLowerAlpha (c : Char) : Bool := 'a' ≤ c && c ≤ 'z'

/-- Match of `\b([a-z]+\s+[a-z]+)\b` at the head of `s` (`prev` is the
previous character): two maximal letter runs joined by a nonempty
whitespace run, with word boundaries on both sides. Returns the matched
phrase and the rest. -/
def bigramAt (prev : Option Char) (s : List Char) : Option (List Char × List Char) :=
  let run1 := s.takeWhile isLowerAlpha
  if run1.isEmpty then none
  else if (match prev with | some p => isWordChar p | none => false) then none
  else
    let s1 := s.drop run1.length
    let ws := s1.takeWhile jsIsSpace
    if ws.isEmpty then none
    else
      let s2 := s1.drop ws.length
      let run2 := s2.takeWhile isLowerAlpha
      if run2.isEmpty then none
      else
        let s3 := s2.drop run2.length
        match s3 with
        | c :: _ => if isWordChar c then none else some (run1 ++ ws ++ run2, s3)
        | [] => some (run1 ++ ws ++ run2, s3)

/-- Fueled scan collecting all bigram matches over the lowercased text. -/
def bigramScanF : Nat → Option Char → List Char → List (List Char)
  | 0, _, _ => []
  | _ + 1, _, [] => []
  | fuel + 1, prev, c :: rest =>
    match bigramAt prev (c :: rest) with
    | some (phrase, s') => phrase :: bigramScanF fuel phrase.getLast? s'
    | none => bigramScanF fuel (some c) rest

/-- Source `extractPhrases(text)`: noun phrases from the external chunker (two or
more words, longer than 5 characters, lowercased), then the bigram regex
phrases whose first word is not a stop word and whose length exceeds 5;
set-deduplicated in insertion order, top 30. -/
def extractPhrases (ext : NLPExt) (text : String) : List String :=
  let nounPhrases := ((ext.nouns text).filter
    (fun noun => jsSplitSpaceLen noun ≥ 2 && noun.data.length > 5)).map jsToLower
  let lower := (jsToLower text).data
  let bigrams := ((bigramScanF lower.length none lower).map String.mk).filter
    (fun phrase => !STOP_WORDS.contains (firstSpaceWord phrase) && phrase.data.length > 5)
  (jsDedup (nounPhrases ++ bigrams)).take 30

/-- Source `extractEntities(text)`: organization and place spans longer than 2
characters, top 20. -/
def extractEntities (ext : NLPExt) (text : String) : List EntityRecord :=
  let orgs := ((ext.organizations text).filter (fun o => o.data.length > 2)).map
    (fun o => EntityRecord.mk "organization" o)
  let places := ((ext.places text).filter (fun p => p.data.length > 2)).map
    (fun p => EntityRecord.mk "place" p)
  (orgs ++ places).take 20

/-- Source `extractKeywords(text)`: empty or whitespace-only input short-circuits
to the all-empty keyword set (with no metadata); otherwise the union of
TF-IDF terms, skill names and phrases, deduplicated in insertion order. -/
def extractKeywords (ext : NLPExt) (text : String) : KeywordSet :=
  if text = "" ∨ (jsTrim text.data).length = 0 then
    { keywords := [], skills := [], actionVerbs := [], phrases := [],
      entities := [], metadata := none }
  else
    let cleanText := jsToLower text
    let tfidfKeywords := extractTFIDFKeywords ext text
    let skills := extractSkills cleanText
    let actionVerbs := extractActionVerbs cleanText
    let phrases := extractPhrases ext text
    let entities := extractEntities ext text
    let allKeywords := jsDedup (tfidfKeywords ++ skills.map (fun s => s.skill) ++ phrases)
    { keywords := allKeywords
      skills := skills
      actionVerbs := actionVerbs
      phrases := phrases
      entities := entities
      metadata := some
        ⟨allKeywords.length, skills.length, actionVerbs.length⟩ }

/-! ## Specification-side definitions

These definitions follow the wording of the specification claims; the
refinement theorems below compare them with the source-derived functions. -/

/-- Spec wording of the Experience Relevance rule: base 70; with a stated
job requirement the resume years decide 100/80/60 (or 50 when absent);
without one, 85 for any positive resume years; then +10 (cap 100) for five
or more distinct action-verb matches and +5 (cap 100) for a leadership
term occurring as a substring. -/
def experienceScoreSpec (resumeText jobDescription : String) : ℚ :=
  let resumeYears := extractYearsOfExperience resumeText
  let jobYears := extractYearsOfExperience jobDescription
  let base : ℚ :=
    match jobYears with
    | some required =>
      match resumeYears with
      | none => 50
      | some r =>
        if (r : ℚ) ≥ (required : ℚ) then 100
        else if (r : ℚ) ≥ (required : ℚ) * 0.75 then 80
        else 60
    | none =>
      match resumeYears with
      | some r => if r > 0 then 85 else 70
      | none => 70
  let withVerbBonus :=
    if (extractActionVerbs (jsToLower resumeText)).length ≥ 5 then min 100 (base + 10)
    else base
  if ["led", "managed", "directed", "supervised", "mentored"].any
      (fun term => sIncludes (jsToLower resumeText) term) then
    min 100 (withVerbBonus + 5)
  else withVerbBonus

/-- Spec-side: does a line start with `-`, `•` or `*` after optional
leading whitespace? -/
def bulletStart (line : List Char) : Bool :=
  match line.dropWhile jsIsSpace with
  | c :: _ => isBulletChar c
  | [] => false

/-- Claim-side count: number of ALL lines of the text (split at `\n`)
that start with a bullet marker after optional whitespace. -/
def claimBulletLines (t : String) : Nat :=
  ((jsSplitChar '\n' t.data).filter bulletStart).length

/-- Amended count: bullet-starting lines excluding the first line of the
text (only these are matched by `/\n[\s]*[-•*]/g`). -/
def bulletLinesAfterFirst (t : String) : Nat :=
  (((jsSplitChar '\n' t.data).drop 1).filter bulletStart).length

/-! ## Concrete inputs used by counterexamples and witnesses -/

/-- External NLP stub used to instantiate witness statements. -/
def trivialNLP : NLPExt := ⟨fun _ => [], fun _ => [], fun _ => [], fun _ => []⟩

/-- Resume text of the weighted-rounding counterexample: five bullet lines,
four detected sections, five digit runs, five distinct action verbs,
a bachelors degree and 4 stated years. -/
def c1Resume : String :=
  "email phone skills education experience\n- achieved 10\n- improved 20\n- developed 30\n- created 40\n- designed things\nbachelors degree\n4 years experience"

/-- Job text of the weighted-rounding counterexample: a masters-level
degree mention, no dictionary skills, no stated years. -/
def c1Job : String := "seeking ms graduate"

/-- Resume-side keyword set of the counterexample (one of three job
keywords matches, giving the fractional match rate 100/3). -/
def c1ResumeKW : KeywordSet := ⟨["alpha"], [], [], [], [], none⟩

/-- Job-side keyword set of the counterexample. -/
def c1JobKW : KeywordSet := ⟨["alpha", "beta", "gamma"], [], [], [], [], none⟩

/-- Resume text for the skills-bonus counterexample: seven dictionary
skills, two of which (python, sql) the job also asks for. -/
def c4Resume : String := "python sql java react mysql docker git"

/-- Job text for the skills-bonus counterexample: three dictionary skills,
two matched, so coverage is 200/3 and the resume has exactly 5 extras. -/
def c4Job : String := "python sql aws"

/-- Text for the bullet-count counterexample: five bullet lines, the first
at the very start of the text. -/
def c5Text : String := "- a\n- b\n- c\n- d\n- e"

/-! ## Helper lemmas -/

theorem ratio100_nonneg (m n : ℕ) : 0 ≤ ((m : ℚ) / (n : ℚ)) * 100 := by
  positivity

theorem ratio100_le (m n : ℕ) (h : m ≤ n) : ((m : ℚ) / (n : ℚ)) * 100 ≤ 100 := by
  rcases Nat.eq_zero_or_pos n with hn | hn
  · subst hn
    simp
  · have hn' : (0 : ℚ) < (n : ℚ) := by exact_mod_cast hn
    have : (m : ℚ) / (n : ℚ) ≤ 1 := by
      rw [div_le_one hn']
      exact_mod_cast h
    nlinarith

theorem jsRound_nonneg (q : ℚ) (h : 0 ≤ q) : 0 ≤ jsRound q := by
  unfold jsRound
  have : (0 : ℚ) ≤ q + 1 / 2 := by linarith
  exact_mod_cast Int.le_floor.mpr (by exact_mod_cast this)

theorem jsRound_le_100 (q : ℚ) (h : q ≤ 100) : jsRound q ≤ 100 := by
  unfold jsRound
  have h2 : ⌊q + 1 / 2⌋ < (101 : ℤ) := Int.floor_lt.mpr (by push_cast; linarith)
  linarith

theorem jsSplitRunsF_length_pos (p : Char → Bool) (fuel : Nat) (l : List Char) :
    1 ≤ (jsSplitRunsF p fuel l).length := by
  cases l with
  | nil => cases fuel <;> simp [jsSplitRunsF]
  | cons c cs =>
    cases fuel with
    | zero => simp [jsSplitRunsF]
    | succ fuel =>
      rw [jsSplitRunsF]
      split
      · simp
      · cases h : jsSplitRunsF p fuel cs <;> simp [h]

theorem jsSplitRuns_length_pos (p : Char → Bool) (l : List Char) :
    1 ≤ (jsSplitRuns p l).length := jsSplitRunsF_length_pos p l.length l

/-! ## Claim theorems -/

/-- C9: the `industry` argument has no influence on any part of the result
of `calculateScore`: for fixed texts and keyword sets, any two industry
values produce identical `ScoreResult` structures. -/
theorem calculateScore_industry_irrelevant
    (resumeText jobDescription : String) (resumeKeywords jobKeywords : KeywordSet)
    (industry₁ industry₂ : String) :
    calculateScore resumeText jobDescription resumeKeywords jobKeywords industry₁ =
      calculateScore resumeText jobDescription resumeKeywords jobKeywords industry₂ := rfl

/-- C6: `compareKeywords` always reports
`matchRate = matchedCount / totalJobKeywords × 100`, and an empty job
keyword list yields exactly `0` (no division-by-zero artifact). -/
theorem compareKeywords_matchRate (resumeKeywords jobKeywords : List String) :
    ((compareKeywords resumeKeywords jobKeywords).matchRate =
      ((compareKeywords resumeKeywords jobKeywords).matchedCount : ℚ) /
        ((compareKeywords resumeKeywords jobKeywords).totalJobKeywords : ℚ) * 100) ∧
    (compareKeywords resumeKeywords []).matchRate = 0 := by
  constructor
  · cases jobKeywords with
    | nil => simp [compareKeywords]
    | cons k ks => simp [compareKeywords]
  · simp [compareKeywords]

/-- C1 (amended): the overall score is the rounding of the weighted sum of
the five raw (unrounded) sub-scores; the `breakdown` field separately
reports each sub-score rounded. -/
theorem overallScore_weighted_raw
    (resumeText jobDescription : String) (resumeKeywords jobKeywords : KeywordSet)
    (industry : String) :
    (calculateScore resumeText jobDescription resumeKeywords jobKeywords industry).overallScore =
      jsRound
        ((calculateKeywordScore resumeKeywords jobKeywords).score * (40 / 100) +
         (calculateSkillsScore resumeText jobDescription).score * (20 / 100) +
         (calculateExperienceScore resumeText jobDescription).score * (15 / 100) +
         (calculateEducationScore resumeText jobDescription).score * (10 / 100) +
         (calculateFormatScore resumeText).score * (15 / 100)) := rfl

set_option maxRecDepth 10000 in
/-- C1 (counterexample): at this concrete input the overall score (64) is
not the rounding of the weighted sum of the rounded breakdown scores (63):
the keyword sub-score 100/3 rounds to 33 in the breakdown, while the
overall rounding uses the raw value. -/
theorem overallScore_ne_roundedComponents :
    (calculateScore c1Resume c1Job c1ResumeKW c1JobKW "general").overallScore ≠
      jsRound
        (((calculateScore c1Resume c1Job c1ResumeKW c1JobKW "general").breakdown.keywordMatch.score : ℚ) * (40 / 100) +
         ((calculateScore c1Resume c1Job c1ResumeKW c1JobKW "general").breakdown.skillsAlignment.score : ℚ) * (20 / 100) +
         ((calculateScore c1Resume c1Job c1ResumeKW c1JobKW "general").breakdown.experienceRelevance.score : ℚ) * (15 / 100) +
         ((calculateScore c1Resume c1Job c1ResumeKW c1JobKW "general").breakdown.educationMatch.score : ℚ) * (10 / 100) +
         ((calculateScore c1Resume c1Job c1ResumeKW c1JobKW "general").breakdown.formatReadability.score : ℚ) * (15 / 100)) := by
  with_unfolding_all decide

/-- C3: the Experience Relevance sub-score is exactly the case analysis
stated by the specification (base 70, the 100/80/60/50 requirement cases,
the 85/70 no-requirement cases, then the capped +10 action-verb and +5
leadership bonuses). -/
theorem experienceScore_matches_spec (resumeText jobDescription : String) :
    (calculateExperienceScore resumeText jobDescription).score =
      experienceScoreSpec resumeText jobDescription := rfl

/-- C7: `compareKeywords` partitions the job keyword list: concatenating
`matched` and `missing` permutes the job list, the counts add up to the
total, and with an empty resume keyword list nothing matches. -/
theorem compareKeywords_partition (resumeKeywords jobKeywords : List String) :
    ((compareKeywords resumeKeywords jobKeywords).matched ++
        (compareKeywords resumeKeywords jobKeywords).missing).Perm jobKeywords ∧
    (compareKeywords resumeKeywords jobKeywords).matchedCount +
        (compareKeywords resumeKeywords jobKeywords).missingCount =
      (compareKeywords resumeKeywords jobKeywords).totalJobKeywords ∧
    (resumeKeywords = [] →
      (compareKeywords resumeKeywords jobKeywords).matched = [] ∧
      (compareKeywords resumeKeywords jobKeywords).missing = jobKeywords) := by
  refine ⟨?_, ?_, ?_⟩
  · simpa [compareKeywords] using
      List.filter_append_perm
        (fun k => kwMatched (jsDedup (resumeKeywords.map jsToLower)) k) jobKeywords
  · have h :=
      (List.filter_append_perm
        (fun k => kwMatched (jsDedup (resumeKeywords.map jsToLower)) k) jobKeywords).length_eq
    simpa [compareKeywords] using h
  · intro hres
    subst hres
    have hfalse : ∀ k, kwMatched (jsDedup []) k = false := fun _ => rfl
    constructor
    · simp [compareKeywords, hfalse]
    · simp [compareKeywords, hfalse]

/-- Witness for C7 at a concrete input: the empty resume keyword list
against two job keywords. -/
theorem compareKeywords_partition_witness :
    (compareKeywords [] ["python", "sql"]).matched = [] ∧
    (compareKeywords [] ["python", "sql"]).missing = ["python", "sql"] :=
  (compareKeywords_partition [] ["python", "sql"]).2.2 rfl

theorem matchRate_bounds (resumeKeywords jobKeywords : List String) :
    0 ≤ (compareKeywords resumeKeywords jobKeywords).matchRate ∧
      (compareKeywords resumeKeywords jobKeywords).matchRate ≤ 100 := by
  simp only [compareKeywords]
  constructor
  · split_ifs
    · exact ratio100_nonneg _ _
    · norm_num
  · split_ifs
    · exact ratio100_le _ _ (List.length_filter_le _ _)
    · norm_num

theorem keywordScore_bounds (resumeKeywords jobKeywords : KeywordSet) :
    0 ≤ (calculateKeywordScore resumeKeywords jobKeywords).score ∧
      (calculateKeywordScore resumeKeywords jobKeywords).score ≤ 100 := by
  have h := matchRate_bounds resumeKeywords.keywords jobKeywords.keywords
  simp only [calculateKeywordScore]
  constructor
  · split_ifs
    · exact le_min (by norm_num) (by linarith [h.1])
    · exact h.1
  · split_ifs
    · exact min_le_left _ _
    · exact h.2

theorem skillsScore_bounds (resumeText jobDescription : String) :
    0 ≤ (calculateSkillsScore resumeText jobDescription).score ∧
      (calculateSkillsScore resumeText jobDescription).score ≤ 100 := by
  simp only [calculateSkillsScore]
  split
  · norm_num
  · rename_i h
    dsimp only
    have hlen : 0 < (extractSkills (jsToLower jobDescription)).length :=
      Nat.pos_of_ne_zero h
    rw [if_pos hlen]
    constructor
    · split_ifs
      · exact le_min (by norm_num) (by positivity)
      · exact ratio100_nonneg _ _
    · split_ifs
      · exact min_le_left _ _
      · exact ratio100_le _ _ (List.length_filter_le _ _)

theorem experienceScore_bounds (resumeText jobDescription : String) :
    0 ≤ (calculateExperienceScore resumeText jobDescription).score ∧
      (calculateExperienceScore resumeText jobDescription).score ≤ 100 := by
  simp only [calculateExperienceScore]
  rcases extractYearsOfExperience jobDescription with _ | j <;>
    rcases extractYearsOfExperience resumeText with _ | r <;>
    simp only [] <;> split_ifs <;> constructor <;> norm_num [min_def]

theorem educationScore_bounds (resumeText jobDescription : String) :
    0 ≤ (calculateEducationScore resumeText jobDescription).score ∧
      (calculateEducationScore resumeText jobDescription).score ≤ 100 := by
  simp only [calculateEducationScore]
  split_ifs <;> constructor <;> norm_num [min_def]

theorem formatScore_bounds (resumeText : String) :
    0 ≤ (calculateFormatScore resumeText).score ∧
      (calculateFormatScore resumeText).score ≤ 100 := by
  simp only [calculateFormatScore]
  exact ⟨le_max_left 0 _, max_le (by norm_num) (min_le_left _ _)⟩

/-- C2: for every pair of input strings (and any keyword sets and industry
value), the overall score is an integer (it is `ℤ`-valued by construction)
between 0 and 100. -/
theorem overallScore_in_range (resumeText jobDescription : String)
    (resumeKeywords jobKeywords : KeywordSet) (industry : String) :
    0 ≤ (calculateScore resumeText jobDescription resumeKeywords jobKeywords
        industry).overallScore ∧
      (calculateScore resumeText jobDescription resumeKeywords jobKeywords
        industry).overallScore ≤ 100 := by
  have hk := keywordScore_bounds resumeKeywords jobKeywords
  have hs := skillsScore_bounds resumeText jobDescription
  have he := experienceScore_bounds resumeText jobDescription
  have hd := educationScore_bounds resumeText jobDescription
  have hf := formatScore_bounds resumeText
  have heq : (calculateScore resumeText jobDescription resumeKeywords jobKeywords
      industry).overallScore =
      jsRound
        ((calculateKeywordScore resumeKeywords jobKeywords).score * (40 / 100) +
         (calculateSkillsScore resumeText jobDescription).score * (20 / 100) +
         (calculateExperienceScore resumeText jobDescription).score * (15 / 100) +
         (calculateEducationScore resumeText jobDescription).score * (10 / 100) +
         (calculateFormatScore resumeText).score * (15 / 100)) := rfl
  rw [heq]
  constructor
  · exact jsRound_nonneg _ (by nlinarith [hk.1, hs.1, he.1, hd.1, hf.1])
  · exact jsRound_le_100 _ (by nlinarith [hk.2, hs.2, he.2, hd.2, hf.2, hk.1, hs.1, he.1, hd.1, hf.1])

/-- C4 (amended): within `calculateSkillsScore`, when the job text yields at
least one detected skill, the +10 bonus (capped at 100) is applied exactly
when the resume has MORE THAN 5 extra unmatched skills (i.e. at least 6)
and the coverage exceeds 50. -/
theorem skillsScore_bonus_rule (resumeText jobDescription : String)
    (h : extractSkills (jsToLower jobDescription) ≠ []) :
    (calculateSkillsScore resumeText jobDescription).score =
      if skillsExtra resumeText jobDescription > 5 ∧
          skillsCoverage resumeText jobDescription > 50 then
        min 100 (skillsCoverage resumeText jobDescription + 10)
      else skillsCoverage resumeText jobDescription := by
  simp only [calculateSkillsScore, skillsCoverage, skillsExtra]
  rw [if_neg (by simpa [List.length_eq_zero] using h)]

/-- C4 (counterexample): a resume with exactly 5 extra skills and coverage
200/3 > 50 receives no bonus, contradicting the claim's "5 or more". -/
theorem skillsScore_bonus_cex :
    skillsExtra c4Resume c4Job = 5 ∧ skillsCoverage c4Resume c4Job > 50 ∧
    (calculateSkillsScore c4Resume c4Job).score ≠
      min 100 (skillsCoverage c4Resume c4Job + 10) := by
  with_unfolding_all decide

/-- Witness for the amended C4 rule at the concrete counterexample input. -/
theorem skillsScore_bonus_rule_witness :
    extractSkills (jsToLower c4Job) ≠ [] ∧
    (calculateSkillsScore c4Resume c4Job).score =
      (if skillsExtra c4Resume c4Job > 5 ∧ skillsCoverage c4Resume c4Job > 50 then
        min 100 (skillsCoverage c4Resume c4Job + 10)
      else skillsCoverage c4Resume c4Job) :=
  ⟨by with_unfolding_all decide,
   skillsScore_bonus_rule c4Resume c4Job (by with_unfolding_all decide)⟩

/-- C8: on an input that is empty or all whitespace, `extractKeywords`
returns a keyword set whose five sequences are all empty (and, being a
total function of its arguments, it never fails). -/
theorem extractKeywords_wsOnly (ext : NLPExt) (text : String)
    (h : ∀ c ∈ text.data, jsIsSpace c = true) :
    (extractKeywords ext text).keywords = [] ∧
    (extractKeywords ext text).skills = [] ∧
    (extractKeywords ext text).actionVerbs = [] ∧
    (extractKeywords ext text).phrases = [] ∧
    (extractKeywords ext text).entities = [] := by
  have hdrop : text.data.dropWhile jsIsSpace = [] := List.dropWhile_eq_nil_iff.mpr h
  have htrim : (jsTrim text.data).length = 0 := by simp [jsTrim, hdrop]
  simp [extractKeywords, htrim]

/-- Witness for C8 at the concrete whitespace-only input `" "`. -/
theorem extractKeywords_wsOnly_witness :
    (∀ c ∈ (" " : String).data, jsIsSpace c = true) ∧
    (extractKeywords trivialNLP " ").keywords = [] ∧
    (extractKeywords trivialNLP " ").skills = [] ∧
    (extractKeywords trivialNLP " ").actionVerbs = [] ∧
    (extractKeywords trivialNLP " ").phrases = [] ∧
    (extractKeywords trivialNLP " ").entities = [] :=
  ⟨by decide, extractKeywords_wsOnly trivialNLP " " (by decide)⟩

/-- C10: the reported word count is always at least 1 (splitting on
whitespace yields one empty token for the empty string); the empty resume
is counted as 1 word, estimated at 1 page, classified as non-optimal and
falls in the under-300-words branch of the format word-count rule. -/
theorem resumeLength_words_pos (resumeText jobDescription : String)
    (resumeKeywords jobKeywords : KeywordSet) (industry : String) :
    1 ≤ (calculateScore resumeText jobDescription resumeKeywords jobKeywords
        industry).metrics.resumeLength.words ∧
    (resumeText = "" →
      (calculateScore resumeText jobDescription resumeKeywords jobKeywords
          industry).metrics.resumeLength.words = 1 ∧
      (calculateScore resumeText jobDescription resumeKeywords jobKeywords
          industry).metrics.resumeLength.pages = 1 ∧
      (calculateScore resumeText jobDescription resumeKeywords jobKeywords
          industry).metrics.resumeLength.optimal = false ∧
      formatLengthPoints resumeText = 10) := by
  constructor
  · show 1 ≤ countWords resumeText
    exact jsSplitRuns_length_pos _ _
  · rintro rfl
    refine ⟨rfl, ?_, rfl, ?_⟩
    · show estimatePages "" = 1
      with_unfolding_all decide
    · show formatLengthPoints "" = 10
      with_unfolding_all decide

/-- Witness for C10 at the empty resume text. -/
theorem resumeLength_words_pos_witness :
    1 ≤ (calculateScore "" "" ⟨[], [], [], [], [], none⟩ ⟨[], [], [], [], [], none⟩
        "general").metrics.resumeLength.words ∧
    (calculateScore "" "" ⟨[], [], [], [], [], none⟩ ⟨[], [], [], [], [], none⟩
        "general").metrics.resumeLength.words = 1 ∧
    (calculateScore "" "" ⟨[], [], [], [], [], none⟩ ⟨[], [], [], [], [], none⟩
        "general").metrics.resumeLength.pages = 1 :=
  ⟨(resumeLength_words_pos "" "" _ _ "general").1,
   ((resumeLength_words_pos "" "" ⟨[], [], [], [], [], none⟩ ⟨[], [], [], [], [], none⟩
      "general").2 rfl).1,
   ((resumeLength_words_pos "" "" ⟨[], [], [], [], [], none⟩ ⟨[], [], [], [], [], none⟩
      "general").2 rfl).2.1⟩

/-! ## Bullet-count / line-count equivalence (C5) -/

theorem jsSplitChar_ne_nil (sep : Char) (l : List Char) : jsSplitChar sep l ≠ [] := by
  cases l with
  | nil => simp [jsSplitChar]
  | cons c cs =>
    simp only [jsSplitChar]
    split_ifs
    · simp
    · split <;> simp

theorem jsSplitChar_cons_sep (sep : Char) (t : List Char) :
    jsSplitChar sep (sep :: t) = [] :: jsSplitChar sep t := by
  simp [jsSplitChar]

theorem jsSplitChar_cons_of_ne (sep c : Char) (t : List Char) (h : ¬ c = sep) :
    ∃ l ls, jsSplitChar sep t = l :: ls ∧ jsSplitChar sep (c :: t) = (c :: l) :: ls := by
  rcases hs : jsSplitChar sep t with _ | ⟨l, ls⟩
  · exact absurd hs (jsSplitChar_ne_nil sep t)
  · refine ⟨l, ls, rfl, ?_⟩
    simp [jsSplitChar, h, hs]

theorem bulletStart_cons_ws (c : Char) (l : List Char) (hc : jsIsSpace c = true) :
    bulletStart (c :: l) = bulletStart l := by
  simp [bulletStart, List.dropWhile_cons, hc]

theorem bulletStart_cons_not_ws (c : Char) (l : List Char) (hc : ¬ jsIsSpace c = true) :
    bulletStart (c :: l) = isBulletChar c := by
  simp [bulletStart, List.dropWhile_cons, hc]

theorem filterLines_of_bullet (b : Char) (hb : isBulletChar b = true) :
    ∀ rest rest' : List Char, rest.dropWhile jsIsSpace = b :: rest' →
    ((jsSplitChar '\n' rest).filter bulletStart).length =
      1 + (((jsSplitChar '\n' rest').drop 1).filter bulletStart).length := by
  intro rest
  induction rest with
  | nil => intro rest' hd; simp at hd
  | cons c t ih =>
    intro rest' hd
    rw [List.dropWhile_cons] at hd
    by_cases hc : jsIsSpace c = true
    · rw [if_pos hc] at hd
      by_cases hnl : c = '\n'
      · subst hnl
        rw [jsSplitChar_cons_sep, List.filter_cons]
        simp only [show bulletStart ([] : List Char) = false from rfl,
          Bool.false_eq_true, if_false]
        exact ih rest' hd
      · obtain ⟨l, ls, h1, h2⟩ := jsSplitChar_cons_of_ne '\n' c t hnl
        rw [h2, List.filter_cons, bulletStart_cons_ws c l hc]
        have htail := ih rest' hd
        rw [h1, List.filter_cons] at htail
        cases hbl : bulletStart l <;> simp [hbl] at htail ⊢ <;> omega
    · rw [if_neg hc] at hd
      injection hd with hcb ht
      subst hcb
      subst ht
      have hnl : ¬ c = '\n' := by
        intro hh
        subst hh
        simp [jsIsSpace] at hc
      obtain ⟨l, ls, h1, h2⟩ := jsSplitChar_cons_of_ne '\n' c t hnl
      rw [h2, List.filter_cons, bulletStart_cons_not_ws c l hc, hb]
      simp [h1]
      omega

theorem firstLine_bullet (rest : List Char) :
    ∀ l ls, jsSplitChar '\n' rest = l :: ls → bulletStart l = true →
    ∃ b r', rest.dropWhile jsIsSpace = b :: r' ∧ isBulletChar b = true := by
  induction rest with
  | nil =>
    intro l ls hs hb
    simp [jsSplitChar] at hs
    rw [hs.1] at hb
    simp [bulletStart] at hb
  | cons c t ih =>
    intro l ls hs hb
    by_cases hnl : c = '\n'
    · subst hnl
      rw [jsSplitChar_cons_sep] at hs
      injection hs with h1 h2
      rw [← h1] at hb
      simp [bulletStart] at hb
    · obtain ⟨l', ls', h1, h2⟩ := jsSplitChar_cons_of_ne '\n' c t hnl
      rw [h2] at hs
      injection hs with hcl hls
      rw [← hcl] at hb
      by_cases hc : jsIsSpace c = true
      · rw [bulletStart_cons_ws c l' hc] at hb
        obtain ⟨b, r', hd, hbb⟩ := ih l' ls' h1 hb
        refine ⟨b, r', ?_, hbb⟩
        rw [List.dropWhile_cons, if_pos hc, hd]
      · rw [bulletStart_cons_not_ws c l' hc] at hb
        exact ⟨c, t, by rw [List.dropWhile_cons, if_neg hc], hb⟩

theorem filterLines_no_bullet (rest : List Char)
    (h : ∀ b r', rest.dropWhile jsIsSpace = b :: r' → isBulletChar b = false) :
    ((jsSplitChar '\n' rest).filter bulletStart).length =
      (((jsSplitChar '\n' rest).drop 1).filter bulletStart).length := by
  rcases hs : jsSplitChar '\n' rest with _ | ⟨l, ls⟩
  · exact absurd hs (jsSplitChar_ne_nil _ _)
  · have hbl : bulletStart l = false := by
      cases hbl : bulletStart l with
      | false => rfl
      | true =>
        obtain ⟨b, r', hd, hbb⟩ := firstLine_bullet rest l ls hs hbl
        rw [h b r' hd] at hbb
        cases hbb
    simp [List.filter_cons, hbl]

theorem bulletScanF_eq_lines :
    ∀ (fuel : Nat) (s : List Char), s.length ≤ fuel →
    bulletScanF fuel s = (((jsSplitChar '\n' s).drop 1).filter bulletStart).length := by
  intro fuel
  induction fuel with
  | zero =>
    intro s hs
    obtain rfl := List.length_eq_zero.mp (Nat.le_zero.mp hs)
    simp [bulletScanF, jsSplitChar]
  | succ fuel ih =>
    intro s hs
    cases s with
    | nil => simp [bulletScanF, jsSplitChar]
    | cons c rest =>
      have hrest : rest.length ≤ fuel := by
        simp only [List.length_cons] at hs
        omega
      simp only [bulletScanF]
      by_cases hnl : c = '\n'
      · subst hnl
        rw [if_pos rfl, jsSplitChar_cons_sep]
        simp only [List.drop_succ_cons, List.drop_zero]
        rcases hdrop : rest.dropWhile jsIsSpace with _ | ⟨b, rest'⟩
        · rw [ih rest hrest]
          refine (filterLines_no_bullet rest ?_).symm
          intro b' r' hq
          rw [hdrop] at hq
          cases hq
        · dsimp only
          by_cases hb : isBulletChar b = true
          · rw [if_pos hb]
            have hr' : rest'.length ≤ fuel := by
              have h1 : (b :: rest').length ≤ rest.length := by
                rw [← hdrop]
                exact length_dropWhile_leL jsIsSpace rest
              simp only [List.length_cons] at h1
              omega
            rw [ih rest' hr']
            exact (filterLines_of_bullet b hb rest rest' hdrop).symm
          · rw [if_neg hb]
            rw [ih rest hrest]
            refine (filterLines_no_bullet rest ?_).symm
            intro b' r' hq
            rw [hdrop] at hq
            injection hq with h1 h2
            rw [← h1]
            simpa using hb
      · rw [if_neg hnl, ih rest hrest]
        obtain ⟨l, ls, h1, h2⟩ := jsSplitChar_cons_of_ne '\n' c rest hnl
        rw [h1, h2]
        simp

/-- C5 (amended): the bullet-point component adds +15 exactly when at least
5 lines OTHER THAN THE FIRST LINE of the text start with `-`, `•` or `*`
after optional leading whitespace; a bullet line at the very start of the
text is not counted (the regex requires a preceding newline). -/
theorem formatBulletPoints_rule (t : String) :
    formatBulletPoints t = if bulletLinesAfterFirst t ≥ 5 then 15 else 5 := by
  unfold formatBulletPoints bulletPointCount bulletLinesAfterFirst
  rw [bulletScanF_eq_lines t.data.length t.data (le_refl _)]

/-- C5 (counterexample): a text whose five lines all start with a bullet,
the first at the very start of the text, has five bullet lines in the
claim's sense but receives only +5, because the match at the start of the
text is missed. -/
theorem formatBulletPoints_cex :
    claimBulletLines c5Text ≥ 5 ∧ formatBulletPoints c5Text ≠ 15 := by
  with_unfolding_all decide

end ResumeScorer
